import Mathlib

/-!
Verification of the versioned-api-router package: a shallow embedding of
`src/unnamed/part_001` (the version verifier), `src/lib/apiVerifier.js` and
`src/lib/endpoints.js`, together with theorems settling the specification
claims about version matching, endpoint lookup and the parameter pipeline.

JavaScript dynamic values are modelled by the inductive type `JSVal`;
machine numbers are modelled by `Rat` with an explicit `nan` constructor
(JS numbers are floats, but every literal exercised here is exactly
representable, and `NaN` propagation is what the code branches on).
External builtins (`parseInt`, `parseFloat`, `ToNumber`, `ToInt32`) are
modelled from the ECMAScript specification.
-/

/-- Model of a JavaScript runtime value.  Functions are opaque tokens
carrying an identifier: the code under verification only tests them for
truthiness or coerces them to numbers, it never calls them through this
type (callable hooks are modelled separately as Lean functions). -/
inductive JSVal where
  | undefined
  | null
  | bool (b : Bool)
  | num (q : Rat)
  | nan
  | str (s : String)
  | arr (l : List JSVal)
  | fn (id : Nat)

/-- JS truthiness (ToBoolean): `undefined`, `null`, `false`, `0`, `NaN` and
the empty string are falsy; every object (arrays, functions) is truthy. -/
def truthy : JSVal → Bool
  | .undefined => false
  | .null => false
  | .bool b => b
  | .num q => !(q == 0)
  | .nan => false
  | .str s => !(s == "")
  | .arr _ => true
  | .fn _ => true

/-- JS `v === undefined` (also true for a property read of a missing key). -/
def JSVal.isUndefined : JSVal → Bool
  | .undefined => true
  | _ => false

/-- JS `Array.isArray(v)`. -/
def JSVal.isArr : JSVal → Bool
  | .arr _ => true
  | _ => false

/-- Reading the `length` property: strings and arrays have one, everything
else yields `undefined`. -/
def jsLength : JSVal → JSVal
  | .str s => .num s.length
  | .arr l => .num l.length
  | _ => .undefined

/-- ASCII digit list to `Nat`. -/
def digitsToNat (ds : List Char) : Nat :=
  ds.foldl (fun a c => a * 10 + (c.toNat - 48)) 0

/-- Hex digit list to `Nat` (for `parseInt`'s automatic `0x` radix). -/
def hexToNat (ds : List Char) : Nat :=
  ds.foldl (fun a c =>
    a * 16 + (if c.isDigit then c.toNat - 48
              else if c ≥ 'a' then c.toNat - 87 else c.toNat - 55)) 0

def isHexDigit (c : Char) : Bool :=
  c.isDigit || ('a' ≤ c && c ≤ 'f') || ('A' ≤ c && c ≤ 'F')

/-- ASCII lower-casing of one character (JS `toLowerCase` on the ASCII
range, the only range the router's type names and boolean words use). -/
def charLower (c : Char) : Char :=
  if 'A' ≤ c ∧ c ≤ 'Z' then Char.ofNat (c.toNat + 32) else c

/-- JS `String.prototype.toLowerCase` (ASCII). -/
def lowerStr (s : String) : String := .mk (s.toList.map charLower)

/-- JS `String.prototype.trim`. -/
def trimStr (s : String) : String :=
  .mk (((s.toList.dropWhile Char.isWhitespace).reverse.dropWhile Char.isWhitespace).reverse)

/-- JS `String.prototype.split(sep)` for a one-character separator, on
character lists: always returns at least one (possibly empty) piece. -/
def splitSep (sep : Char) : List Char → List (List Char)
  | [] => [[]]
  | c :: t =>
    if c = sep then [] :: splitSep sep t
    else
      match splitSep sep t with
      | h :: r => (c :: h) :: r
      | [] => [[c]]

/-- JS `String.prototype.split(sep)` as strings. -/
def splitStr (sep : Char) (s : String) : List String :=
  (splitSep sep s.toList).map String.mk

/-- JS `String.prototype.startsWith`. -/
def startsWithStr (s p : String) : Bool := p.toList.isPrefixOf s.toList

/-- JS `String.prototype.endsWith`. -/
def endsWithStr (s p : String) : Bool := p.toList.reverse.isPrefixOf s.toList.reverse

/-- ECMAScript `parseInt(s)` with the default radix: skip whitespace, read
an optional sign, detect `0x`/`0X`, then take the longest digit run.
`none` models `NaN`. -/
def jsParseInt (s : String) : Option Int :=
  let cs := s.toList.dropWhile Char.isWhitespace
  let (sgn, cs) : Int × List Char :=
    match cs with
    | '+' :: t => (1, t)
    | '-' :: t => (-1, t)
    | t => (1, t)
  match cs with
  | '0' :: x :: t =>
    if x = 'x' ∨ x = 'X' then
      let hd := t.takeWhile isHexDigit
      if hd = [] then none else some (sgn * hexToNat hd)
    else
      some (sgn * digitsToNat (('0' :: x :: t).takeWhile Char.isDigit))
  | cs' =>
    let ds := cs'.takeWhile Char.isDigit
    if ds = [] then none else some (sgn * digitsToNat ds)

/-- Core of `parseFloat`/`ToNumber`: parse a decimal literal prefix
`[sign] digits [. digits] [(e|E) [sign] digits]`, returning the value and
the unconsumed remainder.  `Infinity` is not modelled (no claim uses it). -/
def parseDecCore (cs0 : List Char) : Option (Rat × List Char) :=
  let (sgn, cs) : Int × List Char :=
    match cs0 with
    | '+' :: t => (1, t)
    | '-' :: t => (-1, t)
    | t => (1, t)
  let ip := cs.takeWhile Char.isDigit
  let cs1 := cs.dropWhile Char.isDigit
  let (fp, cs2) : List Char × List Char :=
    match cs1 with
    | '.' :: t => (t.takeWhile Char.isDigit, t.dropWhile Char.isDigit)
    | t => ([], t)
  if ip = [] ∧ fp = [] then none
  else
    let (ex, cs3) : Int × List Char :=
      match cs2 with
      | e :: t =>
        if e = 'e' ∨ e = 'E' then
          let (es, t2) : Int × List Char :=
            match t with
            | '+' :: u => (1, u)
            | '-' :: u => (-1, u)
            | u => (1, u)
          let ed := t2.takeWhile Char.isDigit
          if ed = [] then (0, e :: t) else (es * (digitsToNat ed : Int), t2.dropWhile Char.isDigit)
        else (0, e :: t)
      | [] => (0, [])
    -- The literal's value `sign * ip.fp * 10^ex` is assembled through a
    -- single normalizing `mkRat` (mantissa `ip ++ fp`, exponent shifted by
    -- the fraction length) to stay kernel-computable.
    let mant : Nat := digitsToNat (ip ++ fp)
    let e : Int := ex - fp.length
    let q : Rat :=
      if e ≥ 0 then mkRat (sgn * (mant * 10 ^ e.toNat : Nat)) 1
      else mkRat (sgn * mant) (10 ^ (-e).toNat)
    some (q, cs3)

/-- ECMAScript `parseFloat(s)`: longest decimal-literal prefix after
leading whitespace; `none` models `NaN`. -/
def jsParseFloat (s : String) : Option Rat :=
  (parseDecCore (s.toList.dropWhile Char.isWhitespace)).map Prod.fst

/-- ECMAScript string-to-number (`ToNumber` on strings): the whole trimmed
string must be a numeric literal; the empty string is `0`. -/
def strToNumber (s : String) : Option Rat :=
  let cs := (trimStr s).toList
  match cs with
  | [] => some 0
  | '0' :: x :: t =>
    if x = 'x' ∨ x = 'X' then
      if t ≠ [] ∧ t.all isHexDigit then some (hexToNat t : Rat) else none
    else
      match parseDecCore cs with
      | some (q, []) => some q
      | _ => none
  | _ =>
    match parseDecCore cs with
    | some (q, []) => some q
    | _ => none

/-- ECMAScript `ToNumber`.  `none` models `NaN`.  For arrays this goes
through `ToPrimitive` (a join): the empty array is `0`, a one-element
array converts like its element, longer arrays contain a comma and fail. -/
def toNumber : JSVal → Option Rat
  | .undefined => none
  | .null => some 0
  | .bool b => some (if b then 1 else 0)
  | .num q => some q
  | .nan => none
  | .str s => strToNumber s
  | .arr [] => some 0
  | .arr [x] => toNumber x
  | .arr _ => none
  | .fn _ => none

/-- JS `isNaN(v)` (coercing). -/
def isNaNJS (v : JSVal) : Bool := (toNumber v).isNone

/-- Truncation toward zero, as `ToInt32`'s first step. -/
def ratTrunc (q : Rat) : Int := if q ≥ 0 then q.floor else q.ceil

/-- ECMAScript `ToInt32`: `NaN`/`undefined`/functions go to `0`; finite
numbers are truncated and wrapped into the signed 32-bit range. -/
def toInt32 (v : JSVal) : Int :=
  match toNumber v with
  | none => 0
  | some q =>
    let n := (ratTrunc q).emod (2 ^ 32)
    if n ≥ 2 ^ 31 then n - 2 ^ 32 else n

/-- JS bitwise or `a | b`: both operands through `ToInt32`, bitwise or on
the two's-complement representation, result re-signed. -/
def jsBitOr (a b : JSVal) : JSVal :=
  let x := ((toInt32 a).emod (2 ^ 32)).toNat
  let y := ((toInt32 b).emod (2 ^ 32)).toNat
  let r := x ||| y
  .num (if r ≥ 2 ^ 31 then (r : Int) - 2 ^ 32 else (r : Int))

/-- JS logical or `a || b`: the first operand if truthy, else the second. -/
def jsOr (a b : JSVal) : JSVal := if truthy a then a else b

/-- JS `<`/`>` as used by the min/max checks: if both operands are strings
they compare lexicographically, otherwise numerically (false on `NaN`). -/
def jsGT (a b : JSVal) : Bool :=
  match a, b with
  | .str x, .str y => decide (y < x)
  | _, _ =>
    match toNumber a, toNumber b with
    | some x, some y => decide (y < x)
    | _, _ => false

def jsLT (a b : JSVal) : Bool := jsGT b a

/-- Decimal representation of an integral JS number (`String(n)`).
Non-integral float formatting is not modelled: no claim exercises it, and
the placeholder cannot collide with a numeric string. -/
def numToString (q : Rat) : String :=
  if q.den = 1 then toString q.num else "~nonIntegralNumber~"

mutual

/-- ECMAScript `ToString`.  Array elements join with commas, with `null`
and `undefined` elements rendered empty, per `Array.prototype.join`. -/
def jsToString : JSVal → String
  | .undefined => "undefined"
  | .null => "null"
  | .bool b => cond b "true" "false"
  | .num q => numToString q
  | .nan => "NaN"
  | .str s => s
  | .arr l => String.intercalate "," (jsToStringList l)
  | .fn _ => "~function~"

/-- Stringification of the elements of an array for the comma join. -/
def jsToStringList : List JSVal → List String
  | [] => []
  | .undefined :: t => "" :: jsToStringList t
  | .null :: t => "" :: jsToStringList t
  | e :: t => jsToString e :: jsToStringList t

end

/-- JS `parseInt` applied to an arbitrary value: the value is stringified
first.  For numbers this truncates toward zero (faithful below the 1e21
exponential-notation threshold, which no claim reaches). -/
def jsParseIntVal : JSVal → Option Int
  | .str s => jsParseInt s
  | .num q => some (ratTrunc q)
  | .arr (x :: _) => jsParseIntVal x
  | _ => none

/-!
## Version verifier (`src/unnamed/part_001`)

`validateVersion(incomingVersion, acceptVersions, cb)` matches an incoming
version against accepted specs.  Specs are numbers, strings (slash-wrapped
pattern strings or semver ranges), RegExp objects, or anything else
(including `undefined`).  The semver library and RegExp engine are
external collaborators and enter as function parameters `sat`
(`semver.satisfies`) and `retest` (`RegExp.prototype.test`).
-/

/-- One accepted-version entry, by its `typeof`/`instanceof` class. -/
inductive VSpec where
  | vstr (s : String)
  | vnum (n : Rat)
  | vregex (pat : String)
  | vother

/-- The second argument of `validateVersion`: either an array of specs or
a single non-array value (which the function wraps into `[value]`;
`vother` as a single value models the absent/`undefined` spec). -/
inductive VArg where
  | one (v : VSpec)
  | many (l : List VSpec)

/-- The `semverizeVersion` helper from `src/unnamed/part_001`: pad a version to three
dotted components (`"1"` to `"1.0.0"`, `"1.2"` to `"1.2.0"`). -/
def semverizeVersion (v : JSVal) : String :=
  let s := jsToString v
  match (splitStr '.' s).length with
  | 1 => s ++ ".0.0"
  | 2 => s ++ ".0"
  | _ => s

/-- Body of a slash-delimited pattern string: `'/pat/'.substr(1, len-2)`. -/
def regexBody (s : String) : String := (s.drop 1).take (s.length - 2)

/-- The `for (let acceptVersion of acceptVersions)` loop of
`validateVersion`.  Returns whether the loop hit `acceptRequest == true`.
The incoming version is threaded because the string branch reassigns it to
its semverized form before later iterations; a slash-delimited string spec
recurses on a fresh RegExp and returns that result for the whole call,
ending the loop whether or not the pattern matched. -/
def validateLoop (sat retest : String → String → Bool) :
    JSVal → List VSpec → Bool
  | _, [] => false
  | inc, spec :: rest =>
    match spec with
    | .vstr s =>
      if startsWithStr s "/" && endsWithStr s "/" then
        retest (regexBody s) (jsToString inc)
      else
        let inc' := semverizeVersion inc
        if sat inc' s then true else validateLoop sat retest (.str inc') rest
    | .vnum n =>
      if (match jsParseIntVal inc with
          | some m => (m : Rat) == n
          | none => false)
      then true else validateLoop sat retest inc rest
    | .vregex pat =>
      if retest pat (jsToString inc) then true
      else validateLoop sat retest inc rest
    | .vother => validateLoop sat retest inc rest

/-- Behaviour of `validateVersion` when a callback is supplied: the boolean handed to
`cb`.  With an empty accept array the loop never runs, `acceptRequest`
keeps its initial `true`, and the final line calls `cb(true)`. -/
def validateVersionCb (sat retest : String → String → Bool)
    (inc : JSVal) : VArg → Bool
  | .many [] => true
  | .many l => validateLoop sat retest inc l
  | .one v => validateLoop sat retest inc [v]

/-- Behaviour of `validateVersion` without a callback: `some true` when a match returns
`true`; otherwise the function falls off its final expression statement
(`cb ? cb(acceptRequest) : acceptRequest;` has no `return`) and yields
`undefined`, modelled as `none` — even for the empty accept array. -/
def validateVersionSync (sat retest : String → String → Bool)
    (inc : JSVal) : VArg → Option Bool
  | .many [] => none
  | .many l => if validateLoop sat retest inc l then some true else none
  | .one v => if validateLoop sat retest inc [v] then some true else none

/-- Truthiness of the synchronous result, as tested by `Endpoints.get`. -/
def validateVersionTruthy (sat retest : String → String → Bool)
    (inc : JSVal) (a : VArg) : Bool :=
  (validateVersionSync sat retest inc a).getD false

/-- A matcher environment that refuses every semver range and pattern;
used for concrete evaluations that never reach those branches. -/
def noMatch : String → String → Bool := fun _ _ => false

/-!
## Parameter verifier (`src/lib/apiVerifier.js`): data model and spec parsing
-/

/-- The hook-free part of a parameter definition, as seen by a custom
validator (`ParamDef` in the source's JSDoc). -/
structure ParamCore where
  type : String := ""
  default : JSVal := .undefined
  required : Bool := false
  array : Bool := false
  min : JSVal := .undefined
  max : JSVal := .undefined

/-- The `validateCb` hook shape: called with `(value, name, config)`; a truthy return is
an error message. -/
abbrev ValidateHook := JSVal → String → ParamCore → JSVal

/-- A normalized parameter definition, including the per-parameter hooks
attached by `configure`.  `error` and `success` are only ever tested for
truthiness or number-coerced by the code under verification, so they stay
`JSVal`; `validate` is called, so it is a Lean function. -/
structure ParamDef extends ParamCore where
  validate : Option ValidateHook := none
  error : JSVal := .undefined
  success : JSVal := .undefined

/-- The object form accepted by `parseParam`: the caller-supplied fields
before normalization (`required` may carry any of the textual encodings). -/
structure ObjSpec where
  type : String := ""
  required : JSVal := .undefined
  default : JSVal := .undefined
  array : JSVal := .undefined
  min : JSVal := .undefined
  max : JSVal := .undefined
  validate : Option ValidateHook := none
  error : JSVal := .undefined
  success : JSVal := .undefined

/-- The scalar `switch (type)` of `parseValue`, written as an if-chain.
Unknown types throw `Invalid type defined for parameter`. -/
def parseScalar (type : String) (value : JSVal) : Except String JSVal :=
  if type = "string" then
    .ok (if truthy value && truthy (jsLength value) then value else .undefined)
  else if type = "bool" ∨ type = "boolean" then
    if !truthy value then .ok .undefined
    else match value with
      | .str s =>
        let t := lowerStr (trimStr s)
        if t = "true" ∨ t = "t" ∨ t = "yes" ∨ t = "y" ∨ t = "1" then .ok (.bool true)
        else if t = "false" ∨ t = "f" ∨ t = "no" ∨ t = "n" ∨ t = "0" then .ok (.bool false)
        else .ok .undefined
      | _ => .error "TypeError: value.trim is not a function"
  else if type = "number" ∨ type = "float" ∨ type = "double" then
    .ok (match value with
      | .str s => match jsParseFloat s with
        | some q => .num q
        | none => .undefined
      | .num q => .num q
      | _ => .undefined)
  else if type = "integer" ∨ type = "short" then
    .ok (match value with
      | .str s => match jsParseInt s with
        | some m => .num m
        | none => .undefined
      | .num q => .num (ratTrunc q)
      | _ => .undefined)
  else
    .error ("Invalid type defined for parameter: " ++ type)

mutual

/-- Model of `parseValue(type, value, false)`: arrays map element-wise (each element
again with `array = false`), everything else goes through the scalar
switch. -/
def parseValueF (type : String) : JSVal → Except String JSVal
  | .arr l => (parseValueListF type l).map .arr
  | v => parseScalar type v

/-- Element-wise `value.map(entry => parseValue(type, entry, false))`. -/
def parseValueListF (type : String) : List JSVal → Except String (List JSVal)
  | [] => .ok []
  | x :: t => do
    let a ← parseValueF type x
    let r ← parseValueListF type t
    .ok (a :: r)

end

/-- Model of `parseValue(type, value, array)` from `src/lib/apiVerifier.js`: an
array input maps element-wise; a truthy non-array input with `array` set
is split on commas (only strings have `.split`; anything else throws a
TypeError), each piece parsed as a scalar; otherwise the scalar switch. -/
def parseValue (type : String) (value : JSVal) (array : Bool) : Except String JSVal :=
  match value with
  | .arr l => (parseValueListF type l).map .arr
  | v =>
    if truthy v && array then
      match v with
      | .str s => ((splitStr ',' s).mapM (fun e => parseScalar type (.str e))).map
          (fun l => .arr l)
      | _ => .error "TypeError: value.split is not a function"
    else parseScalar type v

/-- JS `\w` (the source's `paramMatcher` uses `(\w+)`). -/
def wordChar (c : Char) : Bool := c.isAlphanum || c == '_'

/-- Locate the first `\w+` run, returning it and the remainder of the
input; `none` models a failed regex match (on which the source's
`match[1]` access throws). -/
def findRun : List Char → Option (List Char × List Char)
  | [] => none
  | c :: t =>
    if wordChar c then some ((c :: t).takeWhile wordChar, (c :: t).dropWhile wordChar)
    else findRun t

/-- Group 2 of the source's `paramMatcher` regex: the optional `[]` array
marker right after the type run, with the remaining input. -/
def arrayMark : List Char → Bool × List Char
  | '[' :: ']' :: t => (true, t)
  | t => (false, t)

/-- Groups 3/4 of `paramMatcher`: `(\(([^)]*)\))?` matches only when an
opening paren is followed (anywhere) by a closing one; group 4 is the
run up to the first closing paren. -/
def parenGroup : List Char → Option (List Char)
  | '(' :: t => if t.contains ')' then some (t.takeWhile (· ≠ ')')) else none
  | _ => none

/-- The string form of `parseParam`, applying the regex
`/(\w+)(\[])?(\(([^)]*)\))?/`: group 1 is the type (lower-cased), group 2
the array marker, group 3 a parenthesized default (present only when a
closing paren exists), group 4 its contents up to the first closing paren.
`required` is the absence of group 3; the default is group 4 run through
`parseValue` (whose exception propagates). -/
def parseParamStr (s : String) : Except String ParamDef :=
  match findRun s.toList with
  | none => .error "TypeError: Cannot read properties of null"
  | some (run, rest) =>
    let am := arrayMark rest
    let group4 := parenGroup am.2
    let value : JSVal := match group4 with
      | some g => .str (String.mk g)
      | none => .undefined
    (parseValue (lowerStr (String.mk run)) value am.1).map
      fun d => { type := lowerStr (String.mk run), default := d,
                 required := group4.isNone, array := am.1 }

/-- The `switch (str.required)` of the object form: the explicit falsy
encodings `0, 'FALSE', 'false', 'F', 'f', 'no', 'n', false` (strict
equality). -/
def requiredFalsy : JSVal → Bool
  | .num q => q == 0
  | .str s => s = "FALSE" ∨ s = "false" ∨ s = "F" ∨ s = "f" ∨ s = "no" ∨ s = "n"
  | .bool b => !b
  | _ => false

/-- The object form of `parseParam`: an explicit falsy encoding forces
`required = false`; any other value (including omitted and `true`) makes
`required` the negation of the default's truthiness.  The default is then
re-assigned `str.default || undefined` and `array` is `!!`-coerced. -/
def parseParamObj (o : ObjSpec) : ParamDef :=
  { type := o.type
    required := if requiredFalsy o.required then false else !truthy o.default
    default := if truthy o.default then o.default else .undefined
    array := truthy o.array
    min := o.min
    max := o.max
    validate := o.validate
    error := o.error
    success := o.success }

/-- A parameter specification as supplied at registration: a string, an
object, or anything else (which `parseParam` rejects). -/
inductive ParamSpecArg where
  | strForm (s : String)
  | objForm (o : ObjSpec)
  | badForm

/-- The `parseParam` dispatcher from `src/lib/apiVerifier.js`. -/
def parseParam : ParamSpecArg → Except String ParamDef
  | .strForm s => parseParamStr s
  | .objForm o => .ok (parseParamObj o)
  | .badForm => .error "Given parameter is incompatible"


/-!
## Parameter pipeline (`src/lib/apiVerifier.js`): verify and friends

JS objects used as string-keyed maps are modelled as association lists in
insertion order; a property read of a missing key yields `undefined`.
-/

/-- A JS object as a value map: property read (`undefined` if absent). -/
def getP (m : List (String × JSVal)) (k : String) : JSVal :=
  match m.lookup k with
  | some v => v
  | none => .undefined

/-- Property assignment: replace in place, or append a new key. -/
def setP (m : List (String × JSVal)) (k : String) (v : JSVal) : List (String × JSVal) :=
  match m with
  | [] => [(k, v)]
  | (k', v') :: t => if k' = k then (k, v) :: t else (k', v') :: setP t k v

/-- An endpoint configuration as stored in the registry and consumed by
`verify` (the fields the pipeline reads).  `paramOrder` is `none` when the
configuration never received one — iterating it then throws, which
`verify` catches.  `error`/`success` hooks are modelled by their
truthiness; the outcome records the payload they would receive. -/
structure EndpointConfig where
  paramOrder : Option (List String) := none
  paramMap : String := "args"
  params : List (String × ParamDef) := []
  error : JSVal := .undefined
  success : JSVal := .undefined

/-- The request fields the pipeline reads: for each source property name
(`params`, `query`, ...) the map of values found there.  An absent entry
models a falsy `req[prop]`, which `getParams` skips. -/
structure Req where
  sources : List (String × List (String × JSVal)) := []

/-- Model of `getParams(config, req)`: walk `config.paramOrder`; for each source
present on the request, capture each declared, not-yet-captured parameter
through `parseValue` (which can throw, e.g. on a type name that is not
known — a configuration error surfacing lazily).  First source wins. -/
def getParams (config : EndpointConfig) (req : Req) : Except String (List (String × JSVal)) :=
  match config.paramOrder with
  | none => .error "TypeError: config.paramOrder is not iterable"
  | some order =>
    order.foldlM
      (fun params prop =>
        match req.sources.lookup prop with
        | none => pure params
        | some entries =>
          entries.foldlM
            (fun ps kv =>
              if (getP ps kv.1).isUndefined then
                match config.params.lookup kv.1 with
                | some d => do
                  let pv ← parseValue d.type kv.2 d.array
                  pure (setP ps kv.1 pv)
                | none => pure ps
              else pure ps)
            params)
      []

/-- One record of the error map returned by `checkParams` (`MissingInfo`):
`min`/`max` are attached only by the range checks. -/
structure ErrInfo where
  type : String
  error : JSVal
  min : JSVal := .undefined
  max : JSVal := .undefined

/-- The body of `checkParams`' loop for a single declared parameter: a
`validate` hook short-circuits everything; otherwise the required check,
then — for truthy values — the max and min range checks, each later
assignment to `errors[param]` replacing the earlier one. -/
def checkOne (name : String) (d : ParamDef) (value : JSVal) : Option ErrInfo :=
  match d.validate with
  | some f =>
    let e := f value name d.toParamCore
    if truthy e then some { type := d.type, error := e } else none
  | none =>
    let e1 : Option ErrInfo :=
      if d.required && (!truthy value || (value.isArr && !truthy (jsLength value))) then
        some { type := d.type, error := .str "not set" }
      else none
    let e2 : Option ErrInfo :=
      if truthy value && !isNaNJS d.max then
        if d.type = "string" then
          if jsGT (jsLength value) d.max then
            some { type := d.type, error := .str "value exceeds max value", max := d.max }
          else none
        else if d.type = "number" then
          if jsGT value d.max then
            some { type := d.type, error := .str "value exceeds max value", max := d.max }
          else none
        else none
      else none
    let e3 : Option ErrInfo :=
      if truthy value && !isNaNJS d.min then
        if d.type = "string" then
          if jsLT (jsLength value) d.min then
            some { type := d.type, error := .str "value below min value", min := d.min }
          else none
        else if d.type = "number" then
          if jsLT value d.min then
            some { type := d.type, error := .str "value below min value", min := d.min }
          else none
        else none
      else none
    (e3.orElse fun _ => e2.orElse fun _ => e1)

/-- Model of `checkParams(config, params)`: the error map, in declaration order. -/
def checkParams (config : EndpointConfig) (params : List (String × JSVal)) :
    List (String × ErrInfo) :=
  config.params.filterMap fun nd =>
    (checkOne nd.1 nd.2 (getP params nd.1)).map fun e => (nd.1, e)

/-- Model of `fillParams(config, params)`: assign each declared parameter its
default, but only where the current value reads as `undefined`. -/
def fillParams (cfgParams : List (String × ParamDef)) (params : List (String × JSVal)) :
    List (String × JSVal) :=
  cfgParams.foldl
    (fun acc nd => if (getP acc nd.1).isUndefined then setP acc nd.1 nd.2.default else acc)
    params

/-- One default application: keep a set value, fill an unset one.
`fillParams` acts on each key as a fold of this step over the defaults
declared for that key. -/
def undefStep (v d : JSVal) : JSVal := if v.isUndefined then d else v

/-- The 422 payload `verify` hands to `responder.respond`. -/
structure ErrPayload where
  error : String
  params : List (String × ErrInfo)

/-- Observable outcome of one `verify` call.  `respond status body`
models `responder.respond(req, res, payload, status)`: a `none` body is
`respond(..., null, 422)`, which sends an empty body. -/
inductive Outcome where
  | next
  | errorHookExc (msg : String)
  | errorHookMiss (missing : List (String × ErrInfo))
  | respond (status : Nat) (body : Option ErrPayload)
  | successHook (paramMap : String) (filled : List (String × JSVal))
  | nextFilled (paramMap : String) (filled : List (String × JSVal))

/-- Model of `verify(req, res, next)` from `src/lib/apiVerifier.js`, given the
configuration the endpoint lookup produced (`none` models a falsy lookup
result) and the `NODE_ENV` value.  An extraction exception goes to the
`error` hook, or to a 422 whose body always carries
`{error: e.message, params: {}}`; a non-empty check-error map goes to the
hook, or to a 422 whose body carries the error map only in development
mode.  On success the filled parameters land on `req[config.paramMap]`. -/
def verify (nodeEnv : String) (cfgOpt : Option EndpointConfig) (req : Req) : Outcome :=
  match cfgOpt with
  | none => .next
  | some config =>
    match getParams config req with
    | .error msg =>
      if truthy config.error then .errorHookExc msg
      else .respond 422 (some { error := msg, params := [] })
    | .ok params =>
      let missing := checkParams config params
      if missing.length ≠ 0 then
        if truthy config.error then .errorHookMiss missing
        else if nodeEnv = "development" then
          .respond 422 (some { error := "Required parameters are missing", params := missing })
        else .respond 422 none
      else
        let filled := fillParams config.params params
        if truthy config.success then .successHook config.paramMap filled
        else .nextFilled config.paramMap filled

/-- The endpoint-level registration object handed to `configure` (the
fields its params loop reads). -/
structure ApiSpec where
  params : List (String × ParamSpecArg) := []
  error : JSVal := .undefined
  validate : Option ValidateHook := none
  success : JSVal := .undefined

/-- One iteration of `configure`'s params loop
(`src/lib/apiVerifier.js:55-58`): parse the declaration, then
`parsed.error = parsed.error | api.error || configuration.error` (a
bitwise or!), and ordinary `||` fallbacks for `validate` and `success`. -/
def configureParam (cfgError : JSVal) (cfgValidate : Option ValidateHook) (cfgSuccess : JSVal)
    (api : ApiSpec) (arg : ParamSpecArg) : Except String ParamDef := do
  let parsed ← parseParam arg
  .ok { parsed with
        error := jsOr (jsBitOr parsed.error api.error) cfgError
        validate := (parsed.validate.orElse fun _ => api.validate).orElse fun _ => cfgValidate
        success := jsOr (jsOr parsed.success api.success) cfgSuccess }

/-- The whole params loop of `configure`: every declared parameter
normalized and its hooks resolved. -/
def configureParams (cfgError : JSVal) (cfgValidate : Option ValidateHook) (cfgSuccess : JSVal)
    (api : ApiSpec) : Except String (List (String × ParamDef)) :=
  api.params.mapM fun na =>
    (configureParam cfgError cfgValidate cfgSuccess api na.2).map fun d => (na.1, d)

/-!
## Endpoint registry (`src/lib/endpoints.js`)

`this._mapping` is a three-level object: version bucket key, then
unversioned path, then upper-cased method, holding the EndpointConfig.
Bucket keys are object keys, hence strings: `get` calls
`validateVersion(incomingVersion, version)` synchronously on each key.
-/

abbrev MethodMap := List (String × EndpointConfig)
abbrev PathMap := List (String × MethodMap)
abbrev Registry := List (String × PathMap)

/-- Model of `_unversion`: strip the auto-generated `/v:<param>` path segment. -/
def unversion (cfgParam : String) (path : String) : String :=
  if startsWithStr path ("/v:" ++ cfgParam) then path.drop ("/v:" ++ cfgParam).length
  else path

/-- What `Endpoints.get` returns: `null` from the catch, `undefined` when
the single matching bucket holds the path but not the method, the stored
configuration, or — when the number of matching buckets is not exactly
one — the raw aggregate object built in the loop (for a fixed path and
method, one entry per matching bucket).  Only `null` and `undefined` are
falsy; `obj` is a plain (possibly empty) object and is truthy. -/
inductive GetResult where
  | null
  | undefined
  | cfg (c : EndpointConfig)
  | obj (m : List (String × Option EndpointConfig))

/-- JS truthiness of a `get` result. -/
def GetResult.falsy : GetResult → Bool
  | .null => true
  | .undefined => true
  | _ => false

/-- The `for (let version in this._mapping)` loop of `Endpoints.get`: for
each bucket whose key the version matcher accepts, record
`mapping[version][path][method]`; reading `[method]` off a missing path
throws (modelled as `.error ()`), which the surrounding try/catch turns
into `null`. -/
def collectBuckets (cond : String → Bool) (path method : String) :
    List (String × PathMap) → Except Unit (List (String × Option EndpointConfig))
  | [] => .ok []
  | (key, pm) :: rest =>
    if cond key then
      match pm.lookup path with
      | none => .error ()
      | some mm => (collectBuckets cond path method rest).map fun l => (key, mm.lookup method) :: l
    else collectBuckets cond path method rest

/-- Model of `Endpoints.get(path, method, incomingVersion)`: unversion the path,
collect every version-matching bucket's entry; on a throw return `null`;
with exactly one matching bucket return its stored entry (the config, or
`undefined` when the method is absent); otherwise return the aggregate
object itself — even when it is empty. -/
def endpointsGet (sat retest : String → String → Bool) (cfgParam : String)
    (mapping : Registry) (pathArg method : String) (incoming : JSVal) : GetResult :=
  match collectBuckets (fun key => validateVersionTruthy sat retest incoming (.one (.vstr key)))
      (unversion cfgParam pathArg) method mapping with
  | .error _ => .null
  | .ok [e] =>
    match e.2 with
    | some c => .cfg c
    | none => .undefined
  | .ok l => .obj l

/-!
## Concrete data used by witnesses and counterexamples
-/

/-- The scalar type names `parseValue` understands. -/
def knownScalarTypes : List String :=
  ["string", "bool", "boolean", "number", "float", "double", "integer", "short"]

/-- A matcher environment that accepts every semver range and pattern. -/
def yesMatch : String → String → Bool := fun _ _ => true

/-- An endpoint whose parameter declares the unknown type `foo` (legal at
registration through the object form; `parseValue` throws on it lazily). -/
def cfgBadType : EndpointConfig :=
  { paramOrder := some ["query"]
    params := [("age", { type := "foo", required := true })] }

/-- A request carrying `age` in the query. -/
def reqAge : Req := { sources := [("query", [("age", .str "1")])] }

/-- An endpoint with a required `number` parameter. -/
def cfgReqNum : EndpointConfig :=
  { paramOrder := some ["query"]
    params := [("age", { type := "number", required := true })] }

/-- A request with no usable sources. -/
def reqNone : Req := {}

/-- A required `string` parameter with a configured minimum length. -/
def cfgReqMin : EndpointConfig :=
  { params := [("b", { type := "string", required := true, min := .num 2 })] }

/-- A validator hook that always reports `"Test error"`. -/
def hookTestError : ValidateHook := fun _ _ _ => .str "Test error"

/-- A required `number` parameter guarded by `hookTestError`. -/
def cfgHooked : EndpointConfig :=
  { params := [("age", { type := "number", required := true, validate := some hookTestError })] }

/-- A registration object with one string-form parameter and an
endpoint-level `error` hook (an opaque function value). -/
def apiWithErrorHook : ApiSpec := { params := [("age", .strForm "number")], error := .fn 1 }

/-- The parameter definition `configure` produces for `apiWithErrorHook`'s
`age` when the router-wide error hook is the function `.fn 7`. -/
def ageConfigured : ParamDef :=
  { type := "number", default := .undefined, required := true, array := false
    validate := none, error := .fn 7, success := .undefined }

/-- An empty endpoint configuration (all defaults). -/
def cfgBlank : EndpointConfig := {}

/-- A one-bucket registry: version bucket `"1"`, path `/a`, method GET. -/
def regOne : Registry := [("1", [("/a", [("GET", cfgBlank)])])]

/-- Parameter declarations mirroring the repo's `fillParams` test. -/
def fillDecls : List (String × ParamDef) :=
  [("age", { type := "number", default := .num 25 }),
   ("name", { type := "string", default := .str "Jauhn Dough" })]

/-- A partially-populated parameter map for the fill tests. -/
def fillMap : List (String × JSVal) :=
  [("name", .str "The Narrator"), ("origin", .str "unknown")]

/-!
## Claims C1 and C2: the version matcher on numeric and empty/absent specs
-/

/-- Evaluation of the matcher on a single numeric spec: the loop's only
test is `acceptVersion == parseInt(incomingVersion)`. -/
theorem validateNum_eq (sat retest : String → String → Bool) (n : Rat) (inc : JSVal) :
    validateVersionCb sat retest inc (.one (.vnum n))
      = (match jsParseIntVal inc with
         | some m => (m : Rat) == n
         | none => false) := by
  simp only [validateVersionCb, validateLoop]
  cases h : jsParseIntVal inc with
  | none => simp
  | some m => by_cases hm : ((m : Rat) == n) = true <;> simp [hm]

/-- C1 (corrected): the numeric matcher uses `parseInt`, not `parseFloat`.
At incoming version `"1.5"` against the numeric spec `1` the matcher
accepts (`parseInt("1.5") == 1`), while `parseFloat("1.5") == 1` is false
— so acceptance is not equivalent to `parseFloat(s) == n`. -/
theorem c1_counterexample :
    validateVersionCb noMatch noMatch (.str "1.5") (.one (.vnum 1)) = true
    ∧ ¬ jsParseFloat "1.5" = some 1 := by
  constructor
  · rfl
  · decide

/-- C1 (amended): for every numeric spec `n` and incoming version string
`s`, the matcher accepts `s` against `n` — in callback mode, and
identically in synchronous mode — if and only if `parseInt(s)` is a
number equal to `n` under non-strict numeric equality; an `s` whose
`parseInt` is `NaN` never matches a numeric spec. -/
theorem c1_theorem (n : Rat) (s : String) (sat retest : String → String → Bool) :
    (validateVersionCb sat retest (.str s) (.one (.vnum n)) = true
      ↔ ∃ m : Int, jsParseInt s = some m ∧ (m : Rat) = n)
    ∧ validateVersionTruthy sat retest (.str s) (.one (.vnum n))
      = validateVersionCb sat retest (.str s) (.one (.vnum n)) := by
  have hv : jsParseIntVal (.str s) = jsParseInt s := rfl
  constructor
  · rw [validateNum_eq, hv]
    cases h : jsParseInt s with
    | none => simp
    | some m =>
      simp only [beq_iff_eq]
      constructor
      · intro hmn
        exact ⟨m, rfl, of_decide_eq_true (by simpa using hmn)⟩
      · rintro ⟨m', hm', hmn⟩
        cases Option.some.inj hm'
        simpa using decide_eq_true hmn
  · simp only [validateVersionTruthy, validateVersionSync, validateVersionCb]
    by_cases h : validateLoop sat retest (.str s) [.vnum n] = true <;> simp [h]

/-- C1 (witness): incoming `"2"` against the numeric spec `2` matches. -/
theorem c1_witness :
    validateVersionCb noMatch noMatch (.str "2") (.one (.vnum 2)) = true := by
  exact (c1_theorem 2 "2" noMatch noMatch).1.mpr ⟨2, rfl, rfl⟩

/-- C2 (counterexample): an absent accepted-version specification does not
match: `validateVersion("1", undefined, cb)` wraps `undefined` into
`[undefined]`, whose `typeof` matches no switch case, so the callback
receives `false`; and in synchronous mode even the empty accept list
produces `undefined` (not a match), because the final
`cb ? cb(acceptRequest) : acceptRequest;` statement is not returned. -/
theorem c2_counterexample :
    validateVersionCb noMatch noMatch (.str "1") (.one .vother) = false
    ∧ validateVersionSync noMatch noMatch (.str "1") (.many []) = none := by
  exact ⟨rfl, rfl⟩

/-- C2 (amended): a registration whose accepted-version list is empty
matches every incoming version value (including a request with no version
at all) when the matcher is invoked with a callback — the invocation used
on the request path; an absent (`undefined`) specification matches
nothing; and in synchronous mode the empty list yields `undefined` rather
than a match. -/
theorem c2_theorem (sat retest : String → String → Bool) (inc : JSVal) :
    validateVersionCb sat retest inc (.many []) = true
    ∧ validateVersionCb sat retest inc (.one .vother) = false
    ∧ validateVersionSync sat retest inc (.many []) = none := by
  exact ⟨rfl, rfl, rfl⟩

/-!
## Claim C6: object-form `required`/`default` normalization
-/

/-- C6 (counterexample): an object-form definition with `required` omitted
and the falsy default `false` yields `required = true` (the negation of
the default's truthiness, not of its presence), and the default itself is
destroyed by `str.default = str.default || undefined`. -/
theorem c6_counterexample :
    (parseParamObj { type := "boolean", default := .bool false }).required = true
    ∧ (parseParamObj { type := "boolean", default := .bool false }).default = .undefined := by
  exact ⟨rfl, rfl⟩

/-- C6 (amended): with `required` omitted, `parseParam`'s object form sets
`required` to the negation of the default's truthiness — so a truthy
default gives `required = false` and is preserved, while a falsy default
(`false`, `0`, `""`, ...) gives `required = true` and is replaced by
`undefined`. -/
theorem c6_theorem (o : ObjSpec) (h : o.required = .undefined) :
    (parseParamObj o).required = !truthy o.default
    ∧ (parseParamObj o).default = (if truthy o.default then o.default else .undefined) := by
  unfold parseParamObj
  rw [h]
  exact ⟨rfl, rfl⟩

/-- C6 (witness): a truthy default (`30`) with `required` omitted gives an
optional parameter that keeps its default. -/
theorem c6_witness :
    (parseParamObj { type := "number", default := .num 30 }).required = false
    ∧ (parseParamObj { type := "number", default := .num 30 }).default = .num 30 := by
  have h := c6_theorem { type := "number", default := .num 30 } rfl
  exact ⟨h.1.trans (by decide), h.2.trans (by norm_num [truthy])⟩

/-!
## Claim C10: the `parsed.error | api.error || configuration.error` line
-/

/-- The `ToInt32` coercion maps `undefined` and every function value to `0`. -/
theorem toInt32_undef_or_fn (v : JSVal) (h : v = .undefined ∨ ∃ i, v = .fn i) :
    toInt32 v = 0 := by
  rcases h with h | ⟨i, h⟩ <;> subst h <;> rfl

/-- C10 (counterexample): registering a parameter under an endpoint-level
`error` hook and a falsy router-wide `error` leaves the parameter's
`error` field `undefined` — not the number `0` the claim predicts for a
non-truthy router hook (`0 || undefined` evaluates to `undefined`). -/
theorem c10_counterexample :
    configureParam .undefined none .undefined apiWithErrorHook (.strForm "number")
      = .ok { type := "number", default := .undefined, required := true, array := false
              validate := none, error := .undefined, success := .undefined }
    ∧ (JSVal.undefined ≠ .num 0) := by
  refine ⟨rfl, ?_⟩
  intro h
  cases h

/-- C10 (amended): for every parameter whose parsed `error` field and
whose endpoint-level `api.error` are functions or absent, `configure`
sets the parameter's `error` to the router-wide configuration `error`
value — always: `parsed.error | api.error` coerces both operands through
`ToInt32` to the number `0`, and `0 || x` evaluates to `x` whether or not
`x` is truthy.  The result is never `api.error` nor a param-level error
function. -/
theorem c10_theorem (cfgError : JSVal) (cfgValidate : Option ValidateHook) (cfgSuccess : JSVal)
    (api : ApiSpec) (arg : ParamSpecArg) (d : ParamDef)
    (hapi : api.error = .undefined ∨ ∃ i, api.error = .fn i)
    (hpe : ∀ p, parseParam arg = .ok p → (p.error = .undefined ∨ ∃ i, p.error = .fn i))
    (hres : configureParam cfgError cfgValidate cfgSuccess api arg = .ok d) :
    d.error = cfgError := by
  unfold configureParam at hres
  cases hp : parseParam arg with
  | error e => rw [hp] at hres; cases hres
  | ok p =>
    rw [hp] at hres
    cases hres
    have h1 : jsBitOr p.error api.error = .num 0 := by
      unfold jsBitOr
      rw [toInt32_undef_or_fn p.error (hpe p hp), toInt32_undef_or_fn api.error hapi]
      rfl
    show jsOr (jsBitOr p.error api.error) cfgError = cfgError
    rw [h1]
    rfl

/-- C10 (witness): with the router-wide hook `.fn 7` and an endpoint-level
hook `.fn 1`, the configured parameter's `error` is the router-wide
hook. -/
theorem c10_witness : ageConfigured.error = .fn 7 := by
  refine c10_theorem (.fn 7) none .undefined apiWithErrorHook (.strForm "number") ageConfigured
    (Or.inr ⟨1, rfl⟩) ?_ rfl
  intro p hp
  have hp' : Except.ok (ε := String)
      ({ type := "number", default := .undefined, required := true, array := false } : ParamDef)
      = .ok p := hp
  injection hp' with h
  rw [← h]
  exact Or.inl rfl

/-!
## Claim C9: `fillParams` fills only unset values and is idempotent
-/

/-- Assignment then read of the same key. -/
theorem getP_setP_same (m : List (String × JSVal)) (k : String) (v : JSVal) :
    getP (setP m k v) k = v := by
  induction m with
  | nil => simp [setP, getP, List.lookup]
  | cons h t ih =>
    obtain ⟨k', v'⟩ := h
    by_cases hk : k' = k
    · subst hk
      simp [setP, getP, List.lookup]
    · have hbe : (k == k') = false := beq_eq_false_iff_ne.mpr (Ne.symm hk)
      simpa [setP, hk, getP, List.lookup, hbe] using ih

/-- Assignment then read of a different key. -/
theorem getP_setP_ne (m : List (String × JSVal)) (k k' : String) (v : JSVal) (h : k' ≠ k) :
    getP (setP m k v) k' = getP m k' := by
  have hbe : (k' == k) = false := beq_eq_false_iff_ne.mpr h
  induction m with
  | nil => simp [setP, getP, List.lookup, hbe]
  | cons hd t ih =>
    obtain ⟨k0, v0⟩ := hd
    by_cases hk : k0 = k
    · subst hk
      simp [setP, getP, List.lookup, hbe]
    · by_cases hk' : k' = k0
      · subst hk'
        simp [setP, hk, getP, List.lookup]
      · have hbe' : (k' == k0) = false := beq_eq_false_iff_ne.mpr hk'
        simpa [setP, hk, getP, List.lookup, hbe'] using ih

/-- Pointwise behaviour of `fillParams`: at each key it folds `undefStep`
over the defaults declared for that key, starting from the stored value. -/
theorem getP_fillParams (L : List (String × ParamDef)) (m : List (String × JSVal)) (k : String) :
    getP (fillParams L m) k
      = ((L.filter (fun nd => nd.1 = k)).map (fun nd => nd.2.default)).foldl undefStep
          (getP m k) := by
  induction L generalizing m with
  | nil => rfl
  | cons nd t ih =>
    have hstep : fillParams (nd :: t) m
        = fillParams t (if (getP m nd.1).isUndefined then setP m nd.1 nd.2.default else m) := by
      simp [fillParams]
    rw [hstep, ih]
    by_cases hk : nd.1 = k
    · subst hk
      by_cases hu : (getP m nd.1).isUndefined
      · simp [hu, getP_setP_same, undefStep]
      · simp [hu, undefStep]
    · have hread : getP (if (getP m nd.1).isUndefined then setP m nd.1 nd.2.default else m) k
          = getP m k := by
        by_cases hu : (getP m nd.1).isUndefined <;>
          simp [hu, getP_setP_ne m nd.1 k nd.2.default (fun he => hk he.symm)]
      rw [hread]
      simp [hk]

/-- A set (non-`undefined`) value survives any run of defaults. -/
theorem foldl_undefStep_stable (ds : List JSVal) (v : JSVal) (h : v.isUndefined = false) :
    ds.foldl undefStep v = v := by
  induction ds with
  | nil => rfl
  | cons d t ih => simpa [undefStep, h] using ih

/-- If a run of defaults leaves `undefined`, the start and every default
were `undefined`. -/
theorem foldl_undefStep_undef_all (ds : List JSVal) (v : JSVal)
    (h : (ds.foldl undefStep v).isUndefined = true) :
    v.isUndefined = true ∧ ∀ d ∈ ds, d.isUndefined = true := by
  induction ds generalizing v with
  | nil => exact ⟨h, by simp⟩
  | cons d t ih =>
    have h' := ih (undefStep v d) h
    by_cases hv : v.isUndefined = true
    · have hd : d.isUndefined = true := by simpa [undefStep, hv] using h'.1
      refine ⟨hv, ?_⟩
      intro x hx
      rcases List.mem_cons.mp hx with hx | hx
      · subst hx; exact hd
      · exact h'.2 x hx
    · have hvf : v.isUndefined = false := by
        cases hb : v.isUndefined
        · rfl
        · exact absurd hb hv
      exact absurd (by simpa [undefStep, hvf] using h'.1) hv

/-- The `isUndefined` test detects exactly `.undefined`. -/
theorem isUndefined_eq (v : JSVal) (h : v.isUndefined = true) : v = .undefined := by
  cases v <;> simp_all [JSVal.isUndefined]

/-- Folding only-`undefined` defaults over `undefined` stays `undefined`. -/
theorem foldl_undefStep_all_undef (ds : List JSVal) (h : ∀ d ∈ ds, d.isUndefined = true) :
    ds.foldl undefStep .undefined = .undefined := by
  induction ds with
  | nil => rfl
  | cons d t ih =>
    have hd : d = .undefined := isUndefined_eq d (h d (List.mem_cons_self d t))
    have := ih fun x hx => h x (List.mem_cons_of_mem d hx)
    simpa [undefStep, hd] using this

/-- Re-running a run of defaults on its own result changes nothing. -/
theorem foldl_undefStep_idem (ds : List JSVal) (v : JSVal) :
    ds.foldl undefStep (ds.foldl undefStep v) = ds.foldl undefStep v := by
  by_cases h : (ds.foldl undefStep v).isUndefined = true
  · obtain ⟨-, hall⟩ := foldl_undefStep_undef_all ds v h
    rw [isUndefined_eq _ h]
    exact foldl_undefStep_all_undef ds hall
  · have hf : (ds.foldl undefStep v).isUndefined = false := by
      cases hb : (ds.foldl undefStep v).isUndefined
      · rfl
      · exact absurd hb h
    exact foldl_undefStep_stable ds _ hf

/-- C9 (confirmed): `fillParams` assigns a default only where the current
value reads as `undefined`, never overwriting a set value, and applying it
a second time to its own output leaves the object content (every property
read) unchanged. -/
theorem c9_theorem (L : List (String × ParamDef)) (m : List (String × JSVal)) :
    (∀ k, (getP m k).isUndefined = false → getP (fillParams L m) k = getP m k)
    ∧ ∀ k, getP (fillParams L (fillParams L m)) k = getP (fillParams L m) k := by
  constructor
  · intro k h
    rw [getP_fillParams]
    exact foldl_undefStep_stable _ _ h
  · intro k
    rw [getP_fillParams, getP_fillParams]
    exact foldl_undefStep_idem _ _

/-- C9 (witness): on the repo's own fill scenario, the explicitly-set
`name` survives filling, and a second fill reads back the same `age`. -/
theorem c9_witness :
    getP (fillParams fillDecls fillMap) "name" = .str "The Narrator"
    ∧ getP (fillParams fillDecls (fillParams fillDecls fillMap)) "age"
        = getP (fillParams fillDecls fillMap) "age" := by
  refine ⟨?_, (c9_theorem fillDecls fillMap).2 "age"⟩
  exact ((c9_theorem fillDecls fillMap).1 "name" rfl).trans rfl

/-!
## Claims C5 and C8: `checkParams`
-/

/-- A parameter absent from the declaration list produces no entry in the
error map. -/
theorem lookup_filterMap_none (params : List (String × JSVal)) (L : List (String × ParamDef))
    (p : String) (hp : p ∉ L.map Prod.fst) :
    (L.filterMap fun nd => (checkOne nd.1 nd.2 (getP params nd.1)).map fun e => (nd.1, e)).lookup p
      = none := by
  induction L with
  | nil => rfl
  | cons nd t ih =>
    have hne : p ≠ nd.1 := fun he => hp (by simp [he])
    have hpt : p ∉ t.map Prod.fst := fun hm => hp (by simp [hm])
    have hbe : (p == nd.1) = false := beq_eq_false_iff_ne.mpr hne
    simp only [List.filterMap_cons]
    cases hco : checkOne nd.1 nd.2 (getP params nd.1) with
    | none => exact ih hpt
    | some e =>
      simp only [Option.map_some, List.lookup, hbe]
      exact ih hpt

/-- With distinct declared names, the error map's entry for a declared
parameter is exactly what `checkOne` decides for it. -/
theorem lookup_checkList (params : List (String × JSVal)) (L : List (String × ParamDef))
    (p : String) (d : ParamDef)
    (hnd : (L.map Prod.fst).Nodup) (hmem : (p, d) ∈ L) :
    (L.filterMap fun nd => (checkOne nd.1 nd.2 (getP params nd.1)).map fun e => (nd.1, e)).lookup p
      = checkOne p d (getP params p) := by
  induction L with
  | nil => cases hmem
  | cons nd t ih =>
    obtain ⟨n1, n2⟩ := nd
    have hnd' : (n1 :: t.map Prod.fst).Nodup := by simpa using hnd
    have hsplit := List.nodup_cons.mp hnd'
    rcases List.mem_cons.mp hmem with heq | hmem'
    · cases heq
      simp only [List.filterMap_cons]
      cases hco : checkOne p d (getP params p) with
      | some e => simp [List.lookup, hco]
      | none => exact lookup_filterMap_none params t p hsplit.1
    · have hne : n1 ≠ p := by
        intro he
        apply hsplit.1
        rw [he]
        exact List.mem_map_of_mem Prod.fst hmem'
      simp only [List.filterMap_cons]
      cases hco : checkOne n1 n2 (getP params n1) with
      | none => exact ih hsplit.2 hmem'
      | some e =>
        have hbe : (p == n1) = false := beq_eq_false_iff_ne.mpr (Ne.symm hne)
        simp only [Option.map_some, List.lookup, hbe]
        exact ih hsplit.2 hmem'

/-- Evaluating `checkParams` at a declared name, by the list lemma. -/
theorem lookup_checkParams (config : EndpointConfig) (params : List (String × JSVal))
    (p : String) (d : ParamDef)
    (hnd : (config.params.map Prod.fst).Nodup) (hmem : (p, d) ∈ config.params) :
    (checkParams config params).lookup p = checkOne p d (getP params p) :=
  lookup_checkList params config.params p d hnd hmem

/-- The extracted-value emptiness test of the required check: the
`Array.isArray(value) && !value.length` disjunct holds exactly for the
empty array. -/
theorem isArr_empty_iff (v : JSVal) :
    (v.isArr = true ∧ truthy (jsLength v) = false) ↔ v = .arr [] := by
  cases v <;>
    simp [JSVal.isArr, jsLength, truthy, beq_iff_eq, Nat.cast_eq_zero, List.length_eq_zero]

/-- C5 (counterexample): against a required `number` with extracted value
`0` — a present value, which the claim says records no error — the code's
`!value` test fires and `"not set"` is recorded; and against a required
`string` with `min = 2` and the empty array — empty, so the claim demands
`"not set"` — the recorded error is the min-range error, which overwrites
the `"not set"` record in the same pass. -/
theorem c5_counterexample :
    (checkParams cfgReqNum [("age", .num 0)]).lookup "age"
      = some { type := "number", error := .str "not set" }
    ∧ (checkParams cfgReqMin [("b", .arr [])]).lookup "b"
      = some { type := "string", error := .str "value below min value", min := .num 2 } := by
  exact ⟨rfl, rfl⟩

/-- C5 (amended): for a required declared parameter with no `validate`
hook and no usable `min`/`max` bound, the error map records
`{type, "not set"}` for it if and only if the extracted value is JS-falsy
(`undefined`, `null`, `false`, `0`, `NaN`, `""`) or an empty array.  (With
a `min`/`max` bound configured, a range violation by a truthy value —
e.g. an empty array — replaces the `"not set"` record.) -/
theorem c5_theorem (config : EndpointConfig) (params : List (String × JSVal))
    (p : String) (d : ParamDef)
    (hnd : (config.params.map Prod.fst).Nodup) (hmem : (p, d) ∈ config.params)
    (hval : d.validate = none) (hreq : d.required = true)
    (hmin : toNumber d.min = none) (hmax : toNumber d.max = none) :
    ((checkParams config params).lookup p = some { type := d.type, error := .str "not set" })
      ↔ (truthy (getP params p) = false ∨ getP params p = .arr []) := by
  rw [lookup_checkParams config params p d hnd hmem]
  unfold checkOne
  rw [hval]
  have h2 : (truthy (getP params p) && !isNaNJS d.max) = false := by
    simp [isNaNJS, hmax]
  have h3 : (truthy (getP params p) && !isNaNJS d.min) = false := by
    simp [isNaNJS, hmin]
  simp only [hreq, h2, h3, Bool.true_and, Bool.false_eq_true, if_false, Option.orElse_none,
    Option.none_orElse]
  have hcond : (!truthy (getP params p)
        || ((getP params p).isArr && !truthy (jsLength (getP params p)))) = true
      ↔ (truthy (getP params p) = false ∨ getP params p = .arr []) := by
    simp [isArr_empty_iff]
  by_cases hc : (!truthy (getP params p)
      || ((getP params p).isArr && !truthy (jsLength (getP params p)))) = true
  · simp only [hc, if_true]
    simp [hcond.mp hc]
  · have hcf := hc
    simp only [Bool.not_eq_true] at hcf
    simp only [hcf, Bool.false_eq_true, if_false]
    constructor
    · intro h
      cases h
    · intro h
      exact absurd (hcond.mpr h) hc

/-- C5 (witness): a required `number` parameter missing from the request
records exactly `"not set"`. -/
theorem c5_witness :
    (checkParams cfgReqNum []).lookup "age"
      = some { type := "number", error := .str "not set" } := by
  have h := c5_theorem cfgReqNum [] "age" { type := "number", required := true }
    (by simp [cfgReqNum]) (by simp [cfgReqNum]) rfl rfl rfl rfl
  exact h.mpr (Or.inl rfl)

/-- C8 (confirmed): when a declared parameter carries a `validate` hook,
`checkParams` calls it with the extracted value, the parameter name and
the parameter definition; a truthy return is recorded verbatim as that
parameter's `error` (with its `type`), a falsy return records nothing —
and the built-in required/min/max checks never run for that parameter
(the result depends only on the hook's return). -/
theorem c8_theorem (config : EndpointConfig) (params : List (String × JSVal))
    (p : String) (d : ParamDef) (f : ValidateHook)
    (hnd : (config.params.map Prod.fst).Nodup) (hmem : (p, d) ∈ config.params)
    (hval : d.validate = some f) :
    (checkParams config params).lookup p
      = (if truthy (f (getP params p) p d.toParamCore) = true
         then some { type := d.type, error := f (getP params p) p d.toParamCore }
         else none) := by
  rw [lookup_checkParams config params p d hnd hmem]
  unfold checkOne
  rw [hval]

/-- C8 (witness): the always-failing hook short-circuits the built-in
checks — the present value `11` would pass `required`, yet the error map
carries the hook's message verbatim. -/
theorem c8_witness :
    (checkParams cfgHooked [("age", .num 11)]).lookup "age"
      = some { type := "number", error := .str "Test error" } := by
  have h := c8_theorem cfgHooked [("age", .num 11)] "age"
    { type := "number", required := true, validate := some hookTestError } hookTestError
    (by simp [cfgHooked]) (by simp [cfgHooked]) rfl
  exact h.trans rfl

/-!
## Claim C4: the 422 paths of `verify`
-/

/-- C4 (counterexample): in production mode (`NODE_ENV` not
`"development"`), a request whose parameter extraction throws (here: the
unknown declared type `foo`, a configuration error surfacing lazily) on an
endpoint with no `error` hook is answered with a 422 whose body carries
the structured payload `{error: e.message, params: {}}` — the body is not
empty, although the development-mode switch is off. -/
theorem c4_counterexample :
    verify "production" (some cfgBadType) reqAge
      = .respond 422 (some { error := "Invalid type defined for parameter: foo", params := [] })
    ∧ "production" ≠ "development" := by
  refine ⟨rfl, ?_⟩
  decide

/-- C4 (amended): on an endpoint whose `error` hook is falsy, `verify`
answers every failing request with HTTP 422; for a non-empty check-error
set the structured payload appears in the body only when `NODE_ENV` is
`"development"` (empty body otherwise), but for an extraction-time
exception the body always carries `{error: message, params: {}}`,
development mode or not. -/
theorem c4_theorem (env : String) (config : EndpointConfig) (req : Req)
    (hhook : truthy config.error = false) :
    (∀ msg, getParams config req = .error msg →
        verify env (some config) req = .respond 422 (some { error := msg, params := [] }))
    ∧ (∀ ps, getParams config req = .ok ps → checkParams config ps ≠ [] →
        verify env (some config) req
          = if env = "development" then
              .respond 422 (some { error := "Required parameters are missing",
                                   params := checkParams config ps })
            else .respond 422 none) := by
  constructor
  · intro msg hmsg
    unfold verify
    simp only [hmsg, hhook]
    simp
  · intro ps hps hne
    unfold verify
    simp only [hps]
    have hlen : (checkParams config ps).length ≠ 0 := by
      intro h0
      exact hne (List.length_eq_zero.mp h0)
    simp [hlen, hhook]

/-- C4 (witness): the extraction-exception conjunct applied to the
unknown-type endpoint, and the check-error conjunct applied to a missing
required parameter in production mode (empty 422 body). -/
theorem c4_witness :
    verify "production" (some cfgReqNum) reqNone = .respond 422 none := by
  have h0 := c4_theorem "production" cfgReqNum reqNone rfl
  have h := h0.2 [] rfl (fun hnil => List.noConfusion hnil)
  simpa using h

/-!
## Claim C3: `Endpoints.get`
-/

/-- With no version-matching bucket the loop collects nothing. -/
theorem collect_none (cond : String → Bool) (path method : String)
    (mp : List (String × PathMap)) (h : ∀ e ∈ mp, cond e.1 = false) :
    collectBuckets cond path method mp = .ok [] := by
  induction mp with
  | nil => rfl
  | cons e t ih =>
    obtain ⟨key, pm⟩ := e
    have he := h (key, pm) (List.mem_cons_self _ t)
    simp only [collectBuckets, he, Bool.false_eq_true, if_false]
    exact ih fun x hx => h x (List.mem_cons_of_mem _ hx)

/-- With exactly one matching bucket that contains the path, the loop
collects exactly that bucket's method entry. -/
theorem collect_single (cond : String → Bool) (path method : String)
    (mp : List (String × PathMap)) (k : String) (pm : PathMap) (mm : MethodMap)
    (hfil : mp.filter (fun e => cond e.1) = [(k, pm)])
    (hpm : pm.lookup path = some mm) :
    collectBuckets cond path method mp = .ok [(k, mm.lookup method)] := by
  induction mp with
  | nil => simp at hfil
  | cons e t ih =>
    obtain ⟨k0, pm0⟩ := e
    by_cases hc : cond k0 = true
    · rw [List.filter_cons_of_pos (by simpa using hc)] at hfil
      have hhd : (k0, pm0) = (k, pm) := (List.cons_eq_cons.mp hfil).1
      have hft : t.filter (fun e => cond e.1) = [] := (List.cons_eq_cons.mp hfil).2
      cases hhd
      have hrest : collectBuckets cond path method t = .ok [] :=
        collect_none cond path method t fun x hx => by
          have := List.filter_eq_nil_iff.mp hft x hx
          simpa using this
      simp [collectBuckets, hc, hpm, hrest, Except.map]
    · rw [List.filter_cons_of_neg (by simpa using hc)] at hfil
      have hcf : cond k0 = false := by
        cases hb : cond k0
        · rfl
        · exact absurd hb hc
      simp only [collectBuckets, hcf, Bool.false_eq_true, if_false]
      exact ih hfil

/-- A matching bucket that lacks the path makes the loop throw. -/
theorem collect_throw (cond : String → Bool) (path method : String)
    (mp : List (String × PathMap)) (k : String) (pm : PathMap)
    (hmem : (k, pm) ∈ mp) (hc : cond k = true) (hlook : pm.lookup path = none) :
    collectBuckets cond path method mp = .error () := by
  induction mp with
  | nil => cases hmem
  | cons e t ih =>
    obtain ⟨k0, pm0⟩ := e
    rcases List.mem_cons.mp hmem with heq | hm'
    · cases heq
      simp [collectBuckets, hc, hlook]
    · by_cases hc0 : cond k0 = true
      · simp only [collectBuckets, hc0, if_true]
        cases h0 : pm0.lookup path with
        | none => rfl
        | some mm => simp [ih hm', Except.map]
      · have hcf : cond k0 = false := by
          cases hb : cond k0
          · rfl
          · exact absurd hb hc0
        simp only [collectBuckets, hcf, Bool.false_eq_true, if_false]
        exact ih hm'

/-- C3 (counterexample): on the empty registry — nothing registered for
any path and method — `Endpoints.get` returns the loop's aggregate
object, an empty plain object, which is truthy, not the falsy/absent
result the claim promises. -/
theorem c3_counterexample :
    endpointsGet yesMatch yesMatch "v" [] "/a" "GET" (.str "1") = .obj []
    ∧ GetResult.falsy (.obj []) = false := by
  exact ⟨rfl, rfl⟩

/-- C3 (amended): `Endpoints.get` returns the stored EndpointConfig when
exactly one version bucket matches the incoming version and that bucket
contains the (unversioned) path — `undefined` if the method is missing
there; when no bucket matches (in particular on an empty registry) it
returns a truthy empty aggregate object rather than a falsy result; and
when any matching bucket lacks the path, the `[method]` read throws and
the catch returns `null`.  (With two or more matching buckets it likewise
returns the aggregate object, the shape the source's TODO flags as
wrong.) -/
theorem c3_theorem (sat retest : String → String → Bool) (cfgParam : String)
    (mapping : Registry) (pathArg method : String) (inc : JSVal) :
    (mapping.filter
        (fun e => validateVersionTruthy sat retest inc (.one (.vstr e.1))) = [] →
      endpointsGet sat retest cfgParam mapping pathArg method inc = .obj [])
    ∧ (∀ k pm mm,
        mapping.filter
          (fun e => validateVersionTruthy sat retest inc (.one (.vstr e.1))) = [(k, pm)] →
        pm.lookup (unversion cfgParam pathArg) = some mm →
        endpointsGet sat retest cfgParam mapping pathArg method inc
          = match mm.lookup method with
            | some c => .cfg c
            | none => .undefined)
    ∧ (∀ k pm, (k, pm) ∈ mapping →
        validateVersionTruthy sat retest inc (.one (.vstr k)) = true →
        pm.lookup (unversion cfgParam pathArg) = none →
        endpointsGet sat retest cfgParam mapping pathArg method inc = .null) := by
  refine ⟨?_, ?_, ?_⟩
  · intro h
    have hall : ∀ e ∈ mapping,
        validateVersionTruthy sat retest inc (.one (.vstr e.1)) = false := fun x hx => by
      have := List.filter_eq_nil_iff.mp h x hx
      simpa using this
    unfold endpointsGet
    rw [collect_none _ _ _ mapping hall]
  · intro k pm mm hfil hpm
    unfold endpointsGet
    rw [collect_single _ _ _ mapping k pm mm hfil hpm]
  · intro k pm hmem hc hlook
    unfold endpointsGet
    rw [collect_throw _ _ _ mapping k pm hmem hc hlook]

/-- C3 (witness): a one-bucket registry under a matcher that accepts the
bucket returns the stored configuration for the registered path and
method. -/
theorem c3_witness :
    endpointsGet yesMatch yesMatch "v" regOne "/a" "GET" (.str "1") = .cfg cfgBlank := by
  have h := (c3_theorem yesMatch yesMatch "v" regOne "/a" "GET" (.str "1")).2.1
    "1" [("/a", [("GET", cfgBlank)])] [("GET", cfgBlank)] rfl rfl
  exact h

/-!
## Claim C7: the string grammar of `parseParam`
-/

/-- Running `findRun` over an input beginning with a non-empty word run captures
that run and leaves whatever the run's greedy extension can reach. -/
theorem findRun_append (l s : List Char) (hne : l ≠ [])
    (hw : ∀ a ∈ l, wordChar a = true) :
    findRun (l ++ s) = some (l ++ s.takeWhile wordChar, s.dropWhile wordChar) := by
  cases l with
  | nil => exact absurd rfl hne
  | cons c t =>
    have hc : wordChar c = true := hw c (List.mem_cons_self c t)
    rw [List.cons_append]
    simp only [findRun, hc, if_true]
    rw [← List.cons_append, List.takeWhile_append_of_pos hw, List.dropWhile_append_of_pos hw]

/-- A parenthesized run with no stray closing paren is captured whole. -/
theorem parenGroup_closed (d : List Char) (hd : d.contains ')' = false) :
    parenGroup ('(' :: (d ++ [')'])) = some d := by
  have hmem : ')' ∉ d := by simpa using hd
  have hcon : (d ++ [')']).contains ')' = true := by simp
  have hall : ∀ a ∈ d, (decide (a ≠ ')')) = true := fun a ha =>
    decide_eq_true fun he => hmem (he ▸ ha)
  simp only [parenGroup, hcon, if_true]
  rw [List.takeWhile_append_of_pos hall]
  simp

/-- Evaluating `parseParam` on a bare word: the regex captures the whole word as the
type, no array marker, no default group — a required parameter whose
default runs `parseValue` on `undefined`. -/
theorem parseParamStr_word (τ : String) (hne : τ.toList ≠ [])
    (hw : ∀ a ∈ τ.toList, wordChar a = true) :
    parseParamStr τ
      = (parseValue (lowerStr τ) .undefined false).map
          (fun v => { type := lowerStr τ, default := v, required := true, array := false }) := by
  have hfr : findRun τ.toList = some (τ.toList, []) := by
    have h := findRun_append τ.toList [] hne hw
    simpa using h
  simp only [parseParamStr, hfr]
  rfl

/-- Evaluating `parseParam` on `word(d)` with no closing paren inside `d`: optional,
default parsed from `d`. -/
theorem parseParamStr_paren (τ d : String) (hne : τ.toList ≠ [])
    (hw : ∀ a ∈ τ.toList, wordChar a = true) (hd : d.toList.contains ')' = false) :
    parseParamStr (τ ++ "(" ++ d ++ ")")
      = (parseValue (lowerStr τ) (.str d) false).map
          (fun v => { type := lowerStr τ, default := v, required := false, array := false }) := by
  have hlist : (τ ++ "(" ++ d ++ ")").toList = τ.toList ++ ('(' :: (d.toList ++ [')'])) := by
    show (τ.toList ++ "(".toList ++ d.toList ++ ")".toList)
        = τ.toList ++ ('(' :: (d.toList ++ [')']))
    simp
  have hf2 : findRun ((τ ++ "(" ++ d ++ ")").toList)
      = some (τ.toList, '(' :: (d.toList ++ [')'])) := by
    rw [hlist, findRun_append τ.toList ('(' :: (d.toList ++ [')'])) hne hw]
    simp [List.takeWhile, List.dropWhile, wordChar]
  simp only [parseParamStr, hf2]
  have hpg : parenGroup (arrayMark ('(' :: (d.toList ++ [')']))).2 = some d.toList := by
    have ham : arrayMark ('(' :: (d.toList ++ [')'])) = (false, '(' :: (d.toList ++ [')'])) := rfl
    rw [ham]
    exact parenGroup_closed d.toList hd
  simp only [hpg]
  rfl

/-- Unknown type names reach `parseValue`'s default branch and throw. -/
theorem parseScalar_unknown (type : String) (v : JSVal) (h : type ∉ knownScalarTypes) :
    parseScalar type v = .error ("Invalid type defined for parameter: " ++ type) := by
  simp only [knownScalarTypes, List.mem_cons, List.mem_singleton, not_or] at h
  obtain ⟨h1, h2, h3, h4, h5, h6, h7, h8⟩ := h
  simp [parseScalar, h1, h2, h3, h4, h5, h6, h7, h8]

/-- C7 (confirmed): for every known scalar type `T`, the string form
yields: `T` alone a required parameter with no default; `T()` optional
with no default (`parseValue` on the empty capture produces `undefined`
for every known scalar type); `T(d)` optional with `d` coerced by `T`'s
`parseValue` rules (any exception propagating); and for every unknown
word `U` the parse throws the registration-time configuration error
`Invalid type defined for parameter`. -/
theorem c7_theorem (T d U : String)
    (hT : T ∈ knownScalarTypes)
    (hd : d.toList.contains ')' = false)
    (hU1 : U.toList ≠ []) (hU2 : ∀ a ∈ U.toList, wordChar a = true)
    (hU3 : lowerStr U ∉ knownScalarTypes) :
    parseParamStr T = .ok { type := T, default := .undefined, required := true, array := false }
    ∧ parseParamStr (T ++ "()")
        = .ok { type := T, default := .undefined, required := false, array := false }
    ∧ parseParamStr (T ++ "(" ++ d ++ ")")
        = (parseValue T (.str d) false).map
            (fun v => { type := T, default := v, required := false, array := false })
    ∧ parseParamStr U = .error ("Invalid type defined for parameter: " ++ lowerStr U) := by
  refine ⟨?_, ?_, ?_, ?_⟩
  · fin_cases hT <;> rfl
  · fin_cases hT <;> rfl
  · fin_cases hT <;> exact parseParamStr_paren _ d (by decide) (by decide) hd
  · rw [parseParamStr_word U hU1 hU2]
    have h4 : parseValue (lowerStr U) .undefined false
        = .error ("Invalid type defined for parameter: " ++ lowerStr U) :=
      parseScalar_unknown (lowerStr U) .undefined hU3
    rw [h4]
    rfl

/-- C7 (witness): `number(30)` parses to an optional number parameter
defaulting to the number `30`, and the unknown type `foo` throws. -/
theorem c7_witness :
    parseParamStr "number(30)"
      = .ok { type := "number", default := .num 30, required := false, array := false } := by
  have h0 := c7_theorem "number" "30" "foo" (by decide) (by decide) (by decide) (by decide)
    (by decide)
  exact h0.2.2.1.trans rfl
